import Mathlib

namespace MCPAuth

/-!
Verification of the OAuth authorization-server proxy in this repository.

JavaScript strings are modelled as lists of Unicode scalar values
(`Str := List Nat`); machine-level host primitives used by the handlers
(`btoa`/`atob`, `JSON.stringify`/`JSON.parse` on the fixed record shapes the
handlers produce, UTF-8 and `application/x-www-form-urlencoded` transport used
by `URLSearchParams`) are embedded as executable functions below.  Network
calls and entropy sources (`fetch`, `Date.now`, `Math.random`) are passed in
as explicit oracle parameters, mirroring the `async`/`await` suspension
points of the source.
-/
/-- A JavaScript string, as the list of its Unicode scalar values. -/
abbrev Str := List Nat

/-- Build a modelled string from a Lean string literal. -/
def s2l (s : String) : Str := s.data.map Char.toNat

/-- JavaScript truthiness of a nullable string: `null` and `""` are falsy. -/
def truthy : Option Str → Bool
  | none => false
  | some [] => false
  | some (_ :: _) => true

/-- JavaScript `a || b` for a nullable string `a` and a string default `b`. -/
def jsOr (a : Option Str) (b : Str) : Str :=
  match a with
  | none => b
  | some [] => b
  | some s => s

/-! ## Base64 (`btoa` / `atob`) -/
/-- The base64 alphabet character for a sextet value. -/
def b64Char (n : Nat) : Nat :=
  if n < 26 then 65 + n
  else if n < 52 then 97 + (n - 26)
  else if n < 62 then 48 + (n - 52)
  else if n = 62 then 43
  else 47

/-- Sextet value of a base64 alphabet character, `none` outside the alphabet. -/
def b64Val (c : Nat) : Option Nat :=
  if 65 ≤ c ∧ c ≤ 90 then some (c - 65)
  else if 97 ≤ c ∧ c ≤ 122 then some (c - 97 + 26)
  else if 48 ≤ c ∧ c ≤ 57 then some (c - 48 + 52)
  else if c = 43 then some 62
  else if c = 47 then some 63
  else none

/-- Base64 encoding of a byte sequence, with `=` (61) padding. -/
def b64encode : Str → Str
  | [] => []
  | [a] => [b64Char (a / 4), b64Char (a % 4 * 16), 61, 61]
  | [a, b] => [b64Char (a / 4), b64Char (a % 4 * 16 + b / 16), b64Char (b % 16 * 4), 61]
  | a :: b :: c :: rest =>
      b64Char (a / 4) :: b64Char (a % 4 * 16 + b / 16) ::
        b64Char (b % 16 * 4 + c / 64) :: b64Char (c % 64) :: b64encode rest

/-- Base64 decoding; fails on strings that are not valid base64. -/
def b64decode : Str → Option Str
  | [] => some []
  | c1 :: c2 :: c3 :: c4 :: rest =>
      match b64Val c1, b64Val c2 with
      | some v1, some v2 =>
          if c3 = 61 ∧ c4 = 61 ∧ rest = [] then
            some [v1 * 4 + v2 / 16]
          else if c4 = 61 ∧ rest = [] then
            match b64Val c3 with
            | some v3 => some [v1 * 4 + v2 / 16, v2 % 16 * 16 + v3 / 4]
            | none => none
          else
            match b64Val c3, b64Val c4, b64decode rest with
            | some v3, some v4, some tail =>
                some ((v1 * 4 + v2 / 16) :: (v2 % 16 * 16 + v3 / 4) :: (v3 % 4 * 64 + v4) :: tail)
            | _, _, _ => none
      | _, _ => none
  | _ => none

/-- `btoa`: throws (here `none`) when some character exceeds U+00FF. -/
def btoa (s : Str) : Option Str :=
  if s.all (fun c => c < 256) then some (b64encode s) else none

/-- `atob` on well-formed base64 input. -/
def atob : Str → Option Str := b64decode

/-! ## Hexadecimal digits -/
/-- Uppercase hex digit character, as emitted by `URLSearchParams` percent escapes. -/
def hexDigitUpper (n : Nat) : Nat :=
  if n < 10 then 48 + n else 55 + n

/-- Lowercase hex digit character, as emitted by `JSON.stringify` unicode escapes. -/
def hexDigitLower (n : Nat) : Nat :=
  if n < 10 then 48 + n else 87 + n

/-- Value of a hex digit character (either case), `none` otherwise. -/
def hexVal (c : Nat) : Option Nat :=
  if 48 ≤ c ∧ c ≤ 57 then some (c - 48)
  else if 65 ≤ c ∧ c ≤ 70 then some (c - 55)
  else if 97 ≤ c ∧ c ≤ 102 then some (c - 87)
  else none

/-! ## UTF-8, as used by `URLSearchParams` serialization -/
/-- UTF-8 encoding of one Unicode scalar value. -/
def utf8EncodeChar (c : Nat) : Str :=
  if c < 128 then [c]
  else if c < 2048 then [192 + c / 64, 128 + c % 64]
  else if c < 65536 then [224 + c / 4096, 128 + c / 64 % 64, 128 + c % 64]
  else [240 + c / 262144, 128 + c / 4096 % 64, 128 + c / 64 % 64, 128 + c % 64]

/-- UTF-8 encoding of a string. -/
def utf8Encode : Str → Str
  | [] => []
  | c :: cs => utf8EncodeChar c ++ utf8Encode cs

/-- Decode one UTF-8 sequence from the head; returns the scalar value and the
remaining bytes, `none` on a malformed head sequence. -/
def utf8DecodeChar : Str → Option (Nat × Str)
  | [] => none
  | b :: bs =>
    if b < 128 then some (b, bs)
    else if b < 192 then none
    else if b < 224 then
      match bs with
      | b2 :: bs2 =>
        if 128 ≤ b2 ∧ b2 < 192 then some ((b - 192) * 64 + (b2 - 128), bs2) else none
      | [] => none
    else if b < 240 then
      match bs with
      | b2 :: b3 :: bs3 =>
        if (128 ≤ b2 ∧ b2 < 192) ∧ (128 ≤ b3 ∧ b3 < 192) then
          some ((b - 224) * 4096 + (b2 - 128) * 64 + (b3 - 128), bs3)
        else none
      | _ => none
    else if b < 248 then
      match bs with
      | b2 :: b3 :: b4 :: bs4 =>
        if (128 ≤ b2 ∧ b2 < 192) ∧ (128 ≤ b3 ∧ b3 < 192) ∧ (128 ≤ b4 ∧ b4 < 192) then
          some ((b - 240) * 262144 + (b2 - 128) * 4096 + (b3 - 128) * 64 + (b4 - 128), bs4)
        else none
      | _ => none
    else none

/-- Decoding loop; every step consumes at least one byte, so a fuel equal to the
input length never runs out. -/
def utf8DecodeFuel : Nat → Str → Option Str
  | _, [] => some []
  | 0, _ :: _ => none
  | fuel + 1, b :: bs =>
    match utf8DecodeChar (b :: bs) with
    | none => none
    | some (c, rest) => (utf8DecodeFuel fuel rest).map (fun t => c :: t)

/-- UTF-8 decoding; `none` on malformed byte sequences. -/
def utf8Decode (s : Str) : Option Str := utf8DecodeFuel s.length s

/-! ## `application/x-www-form-urlencoded` percent codec (`URLSearchParams`) -/
/-- Bytes the `application/x-www-form-urlencoded` serializer leaves unescaped:
ASCII alphanumerics and `*` `-` `.` `_`. -/
def formUnreserved (b : Nat) : Bool :=
  (48 ≤ b && b ≤ 57) || (65 ≤ b && b ≤ 90) || (97 ≤ b && b ≤ 122) ||
    b = 42 || b = 45 || b = 46 || b = 95

/-- Serialize a byte sequence: unreserved bytes verbatim, space as `+`, every
other byte as `%XX` with uppercase hex. -/
def percentEncodeBytes : Str → Str
  | [] => []
  | b :: bs =>
    (if formUnreserved b then [b]
     else if b = 32 then [43]
     else [37, hexDigitUpper (b / 16), hexDigitUpper (b % 16)]) ++ percentEncodeBytes bs

/-- Consume one token of a form-urlencoded value: a `%XX` escape (kept literal
when not followed by two hex digits, as the URL parser does), a `+`, or a
literal byte. -/
def pctDecodeTok : Str → Option (Nat × Str)
  | [] => none
  | c :: rest =>
    if c = 37 then
      match rest with
      | h :: l :: rest2 =>
        match hexVal h, hexVal l with
        | some hv, some lv => some (hv * 16 + lv, rest2)
        | _, _ => some (37, rest)
      | _ => some (37, rest)
    else if c = 43 then some (32, rest)
    else some (c, rest)

/-- Decoding loop; each token consumes at least one input character. -/
def pctDecodeFuel : Nat → Str → Str
  | _, [] => []
  | 0, _ :: _ => []
  | fuel + 1, c :: rest =>
    match pctDecodeTok (c :: rest) with
    | none => []
    | some (b, rest2) => b :: pctDecodeFuel fuel rest2

/-- Parse a form-urlencoded value back into its byte sequence. -/
def percentDecodeBytes (s : Str) : Str := pctDecodeFuel s.length s

/-- The full `URLSearchParams` value transport: serialize as UTF-8 percent-encoded
form data, then parse back and UTF-8 decode, as `searchParams.set`/`get` do. -/
def urlParamTransport (s : Str) : Option Str :=
  utf8Decode (percentDecodeBytes (percentEncodeBytes (utf8Encode s)))

/-! ## `JSON.stringify` / `JSON.parse` on the record shapes the handlers emit -/
/-- The four-character lowercase hex escape payload of `\uXXXX`. -/
def jhex4 (n : Nat) : Str :=
  [hexDigitLower (n / 4096 % 16), hexDigitLower (n / 256 % 16),
   hexDigitLower (n / 16 % 16), hexDigitLower (n % 16)]

/-- `JSON.stringify`'s escaping of one string character: `\"`, `\\`, the
short control escapes `\b` `\t` `\n` `\f` `\r`, `\uXXXX` for the remaining
control characters and for unpaired surrogates, everything else verbatim. -/
def escapeJChar (c : Nat) : Str :=
  if c = 34 then [92, 34]
  else if c = 92 then [92, 92]
  else if c = 8 then [92, 98]
  else if c = 9 then [92, 116]
  else if c = 10 then [92, 110]
  else if c = 12 then [92, 102]
  else if c = 13 then [92, 114]
  else if c < 32 then 92 :: 117 :: jhex4 c
  else if 55296 ≤ c ∧ c ≤ 57343 then 92 :: 117 :: jhex4 c
  else [c]

/-- `JSON.stringify`'s escaping of a whole string (without the quotes). -/
def escapeJ : Str → Str
  | [] => []
  | c :: cs => escapeJChar c ++ escapeJ cs

/-- A JSON string literal: quote, escaped body, quote. -/
def jstr (s : Str) : Str := 34 :: (escapeJ s ++ [34])

/-- Consume one string-literal token: the closing quote (`(none, rest)`), or
one decoded character (`(some c, rest)`); `none` on malformed input, as
`JSON.parse` rejects it. -/
def jTok : Str → Option (Option Nat × Str)
  | [] => none
  | c :: rest =>
    if c = 34 then some (none, rest)
    else if c = 92 then
      match rest with
      | e :: rest2 =>
        if e = 34 then some (some 34, rest2)
        else if e = 92 then some (some 92, rest2)
        else if e = 47 then some (some 47, rest2)
        else if e = 98 then some (some 8, rest2)
        else if e = 116 then some (some 9, rest2)
        else if e = 110 then some (some 10, rest2)
        else if e = 102 then some (some 12, rest2)
        else if e = 114 then some (some 13, rest2)
        else if e = 117 then
          match rest2 with
          | a :: b :: c2 :: d :: rest3 =>
            match hexVal a, hexVal b, hexVal c2, hexVal d with
            | some va, some vb, some vc, some vd =>
                some (some (va * 4096 + vb * 256 + vc * 16 + vd), rest3)
            | _, _, _, _ => none
          | _ => none
        else none
      | [] => none
    else if c < 32 then none
    else some (some c, rest)

/-- String-body parsing loop; each token consumes at least one character. -/
def jStrBodyFuel : Nat → Str → Option (Str × Str)
  | _, [] => none
  | 0, _ :: _ => none
  | fuel + 1, c :: rest =>
    match jTok (c :: rest) with
    | none => none
    | some (none, rest2) => some ([], rest2)
    | some (some ch, rest2) =>
        match jStrBodyFuel fuel rest2 with
        | none => none
        | some (s, rest3) => some (ch :: s, rest3)

/-- Parse a JSON string literal (opening quote, body, closing quote), returning
the decoded string and the rest of the input. -/
def parseJStr : Str → Option (Str × Str)
  | [] => none
  | c :: rest => if c = 34 then jStrBodyFuel rest.length rest else none

/-- `JSON.stringify` of a nullable string field: a string literal or `null`. -/
def jstrOrNull : Option Str → Str
  | some s => jstr s
  | none => s2l "null"

/-- Parse a JSON value that is either a string literal or `null`. -/
def parseJStrOrNull (s : Str) : Option (Option Str × Str) :=
  match s with
  | 34 :: _ => (parseJStr s).map (fun p => (some p.1, p.2))
  | 110 :: 117 :: 108 :: 108 :: rest => some (none, rest)
  | _ => none

/-- Decimal printing loop; each step divides by ten, so any fuel above the
number never runs out. -/
def natToDecFuel : Nat → Nat → Str
  | 0, _ => []
  | fuel + 1, n => if n < 10 then [48 + n] else natToDecFuel fuel (n / 10) ++ [48 + n % 10]

/-- Decimal digit string of a natural number, most significant digit first, as
`JSON.stringify` prints the integral `Date.now()` timestamps. -/
def natToDec (n : Nat) : Str := natToDecFuel (n + 1) n

/-- Accumulating decimal parser: consume digits while they last. -/
def parseDecAux : Nat → Str → Nat × Str
  | acc, [] => (acc, [])
  | acc, c :: rest =>
    if 48 ≤ c ∧ c ≤ 57 then parseDecAux (acc * 10 + (c - 48)) rest else (acc, c :: rest)

/-- Parse a JSON non-negative integer (at least one digit). -/
def parseDec : Str → Option (Nat × Str)
  | [] => none
  | c :: rest => if 48 ≤ c ∧ c ≤ 57 then some (parseDecAux (c - 48) rest) else none

/-- Consume an exact literal character sequence from the head of the input. -/
def expectLit : Str → Str → Option Str
  | [], s => some s
  | _ :: _, [] => none
  | l :: ls, c :: cs => if l = c then expectLit ls cs else none

/-! ## The record shapes carried by the codes and the relay state (`part_000`) -/
/-- The payload decoded from an MCP authorization code
(`interface MCPTokenData` in the Google-handler source file). -/
structure MCPTokenData where
  cognitoIdentityId : Str
  googleUserId : Str
  email : Str
  name : Str
  timestamp : Nat
deriving DecidableEq

/-- The identity fields passed to `createMCPAuthCode`
(`interface CreateMCPAuthCodeInput`). -/
structure CreateMCPAuthCodeInput where
  cognitoIdentityId : Str
  googleUserId : Str
  email : Str
  name : Str
deriving DecidableEq

/-- `JSON.stringify` of an `MCPTokenData` object, with the key order of the
object literal built in `createMCPAuthCode` (spread of the four input fields,
then `timestamp`). -/
def stringifyMCPTokenData (d : MCPTokenData) : Str :=
  s2l "\x7b\"cognitoIdentityId\":" ++ jstr d.cognitoIdentityId ++
    s2l ",\"googleUserId\":" ++ jstr d.googleUserId ++
    s2l ",\"email\":" ++ jstr d.email ++
    s2l ",\"name\":" ++ jstr d.name ++
    s2l ",\"timestamp\":" ++ natToDec d.timestamp ++ s2l "\x7d"

/-- `JSON.parse` restricted to the object grammar that `stringifyMCPTokenData`
emits; inputs outside this grammar are rejected, as the `catch` around
`JSON.parse(atob(code))` treats any decode failure uniformly. -/
def parseMCPTokenData (s : Str) : Option MCPTokenData :=
  match expectLit (s2l "\x7b\"cognitoIdentityId\":") s with
  | none => none
  | some s1 =>
  match parseJStr s1 with
  | none => none
  | some (a, s2) =>
  match expectLit (s2l ",\"googleUserId\":") s2 with
  | none => none
  | some s3 =>
  match parseJStr s3 with
  | none => none
  | some (b, s4) =>
  match expectLit (s2l ",\"email\":") s4 with
  | none => none
  | some s5 =>
  match parseJStr s5 with
  | none => none
  | some (c, s6) =>
  match expectLit (s2l ",\"name\":") s6 with
  | none => none
  | some s7 =>
  match parseJStr s7 with
  | none => none
  | some (d, s8) =>
  match expectLit (s2l ",\"timestamp\":") s8 with
  | none => none
  | some s9 =>
  match parseDec s9 with
  | none => none
  | some (t, s10) =>
  match expectLit (s2l "\x7d") s10 with
  | some [] => some ⟨a, b, c, d, t⟩
  | _ => none

/-- The cross-redirect relay state built at `/authorize` in the Google-handler
variant: original MCP client id, original redirect URI, opaque caller state,
and the PKCE parameters, all read from the query (the last three nullable). -/
structure RelayState where
  mcpClientId : Str
  mcpRedirectUri : Str
  mcpState : Option Str
  codeChallenge : Option Str
  codeChallengeMethod : Option Str
deriving DecidableEq

/-- `JSON.stringify` of the state object literal built in `handleAuthorize`
(`googleState`), in its key order. -/
def stringifyRelayState (r : RelayState) : Str :=
  s2l "\x7b\"mcpClientId\":" ++ jstr r.mcpClientId ++
    s2l ",\"mcpRedirectUri\":" ++ jstr r.mcpRedirectUri ++
    s2l ",\"mcpState\":" ++ jstrOrNull r.mcpState ++
    s2l ",\"codeChallenge\":" ++ jstrOrNull r.codeChallenge ++
    s2l ",\"codeChallengeMethod\":" ++ jstrOrNull r.codeChallengeMethod ++ s2l "\x7d"

/-- `JSON.parse` restricted to the object grammar that `stringifyRelayState`
emits, as evaluated by `JSON.parse(state)` at `/callback`. -/
def parseRelayState (s : Str) : Option RelayState :=
  match expectLit (s2l "\x7b\"mcpClientId\":") s with
  | none => none
  | some s1 =>
  match parseJStr s1 with
  | none => none
  | some (a, s2) =>
  match expectLit (s2l ",\"mcpRedirectUri\":") s2 with
  | none => none
  | some s3 =>
  match parseJStr s3 with
  | none => none
  | some (b, s4) =>
  match expectLit (s2l ",\"mcpState\":") s4 with
  | none => none
  | some s5 =>
  match parseJStrOrNull s5 with
  | none => none
  | some (st, s6) =>
  match expectLit (s2l ",\"codeChallenge\":") s6 with
  | none => none
  | some s7 =>
  match parseJStrOrNull s7 with
  | none => none
  | some (cc, s8) =>
  match expectLit (s2l ",\"codeChallengeMethod\":") s8 with
  | none => none
  | some s9 =>
  match parseJStrOrNull s9 with
  | none => none
  | some (ccm, s10) =>
  match expectLit (s2l "\x7d") s10 with
  | some [] => some ⟨a, b, st, cc, ccm⟩
  | _ => none

/-! ## Well-formed JS strings and character bounds -/
/-- A Unicode scalar value: what one element of a well-formed JS string
(without unpaired surrogates) denotes. -/
def wfChar (c : Nat) : Prop := c < 55296 ∨ (57343 < c ∧ c < 1114112)

/-- Every element of the string is a Unicode scalar value. -/
def wfStr (s : Str) : Prop := ∀ c ∈ s, wfChar c

instance (c : Nat) : Decidable (wfChar c) := by unfold wfChar; infer_instance

instance (s : Str) : Decidable (wfStr s) := by unfold wfStr; exact List.decidableBAll _ s

/-! ## Handler models

Two structural variants of the OAuth handlers exist in the repository: the
Google/Cognito-federation handler (named export `cognitoHandler`, with the
in-memory `tokenStore` and `verifyMCPToken`, wired to the enhanced
`index.ts`), and the registry-checking Cognito handler (default export of
`src/cognito-handler.ts`, wired to the earlier index variant).  Both are
embedded; `Google`/`Cognito` suffixes tell them apart. -/
/-- Lookup in an association list keyed by strings (`Map.get`); `Map.set` is
modelled by consing the new binding in front. -/
def assocGet {α : Type} : List (Str × α) → Str → Option α
  | [], _ => none
  | (k2, v) :: rest, k => if k2 = k then some v else assocGet rest k

/-- The process-lifetime `tokenStore` map of the Google-handler variant:
access token → `MCPTokenData`. -/
abbrev TokenStore := List (Str × MCPTokenData)

/-- `verifyMCPToken` (Google-handler variant): pure lookup in `tokenStore`,
`null` (here `none`) when the token was never stored. -/
def verifyMCPToken (store : TokenStore) (accessToken : Str) : Option MCPTokenData :=
  assocGet store accessToken

/-- The `client_id` keys present in the in-memory `registeredClients` map. -/
def registryHas : List Str → Str → Bool
  | [], _ => false
  | k2 :: rest, k => if k2 = k then true else registryHas rest k

/-- The form parameters `handleToken` reads from the POST body. -/
structure TokenParams where
  grantType : Option Str
  code : Option Str
  clientId : Option Str
  codeVerifier : Option Str
  redirectUri : Option Str
deriving DecidableEq

/-- Outcome of a `/token` request. -/
inductive TokenResult where
  | methodNotAllowed : TokenResult
  | invalidRequest : TokenResult
  | invalidClient : TokenResult
  | invalidGrant : TokenResult
  | success (accessToken : Str) : TokenResult
deriving DecidableEq

/-- HTTP status of each `/token` outcome, as set on the `Response`. -/
def tokenStatus : TokenResult → Nat
  | .methodNotAllowed => 405
  | .invalidRequest => 400
  | .invalidClient => 401
  | .invalidGrant => 400
  | .success _ => 200

/-- Response body of each `/token` outcome (the `JSON.stringify` output for
the JSON bodies). -/
def tokenBody : TokenResult → Str
  | .methodNotAllowed => s2l "Method not allowed"
  | .invalidRequest => s2l "\x7b\"error\":\"invalid_request\"\x7d"
  | .invalidClient => s2l "\x7b\"error\":\"invalid_client\"\x7d"
  | .invalidGrant => s2l "\x7b\"error\":\"invalid_grant\"\x7d"
  | .success t => s2l "\x7b\"access_token\":" ++ jstr t ++
      s2l ",\"token_type\":\"Bearer\",\"expires_in\":3600,\"scope\":\"openid profile email\"\x7d"

/-- `JSON.parse(atob(code))` as evaluated in `handleToken`, on the code grammar
the issuer produces; any decode failure is caught and mapped to
`invalid_grant`. -/
def decodeAuthCode (code : Str) : Option MCPTokenData :=
  (atob code).bind parseMCPTokenData

/-- `handleToken` of the Google-handler variant: grant/parameter check, code
decode, then the fresh opaque token (entropy passed in as `freshToken`) is
mapped to the decoded payload in the token store.  There is no client-registry
check in this variant. -/
def handleTokenGoogle (method : Str) (p : TokenParams) (freshToken : Str)
    (store : TokenStore) : TokenResult × TokenStore :=
  if method ≠ s2l "POST" then (.methodNotAllowed, store)
  else if p.grantType ≠ some (s2l "authorization_code") ∨ ¬truthy p.code ∨ ¬truthy p.clientId then
    (.invalidRequest, store)
  else
    match decodeAuthCode (p.code.getD []) with
    | none => (.invalidGrant, store)
    | some tokenData => (.success freshToken, (freshToken, tokenData) :: store)

/-- `handleToken` of the registry-checking Cognito variant: additionally
rejects unregistered clients with `invalid_client`; on success it builds a
`tokenData` record in a local that is never stored anywhere, and returns the
token envelope. -/
def handleTokenCognito (method : Str) (p : TokenParams) (registry : List Str)
    (freshToken : Str) : TokenResult :=
  if method ≠ s2l "POST" then .methodNotAllowed
  else if p.grantType ≠ some (s2l "authorization_code") ∨ ¬truthy p.code ∨ ¬truthy p.clientId then
    .invalidRequest
  else if ¬ registryHas registry (p.clientId.getD []) then .invalidClient
  else
    match decodeAuthCode (p.code.getD []) with
    | none => .invalidGrant
    | some _ => .success freshToken

/-- The query parameters `handleAuthorize` reads. -/
structure AuthorizeParams where
  clientId : Option Str
  redirectUri : Option Str
  state : Option Str
  scope : Option Str
  codeChallenge : Option Str
  codeChallengeMethod : Option Str
deriving DecidableEq

/-- Outcome of a `/authorize` request: a 400 text, a 401 text, or the 302
redirect to the upstream IdP (base URL and its query parameters in order). -/
inductive AuthorizeResult where
  | missingParams : AuthorizeResult
  | invalidClient : AuthorizeResult
  | redirect (base : Str) (params : List (Str × Str)) : AuthorizeResult
deriving DecidableEq

/-- HTTP status of each `/authorize` outcome. -/
def authorizeStatus : AuthorizeResult → Nat
  | .missingParams => 400
  | .invalidClient => 401
  | .redirect _ _ => 302

/-- `handleAuthorize` of the Google-handler variant: requires truthy
`client_id` and `redirect_uri`, then redirects straight to Google with the
relay state; no client-registry check in this variant. -/
def handleAuthorizeGoogle (p : AuthorizeParams) (origin googleClientId : Str) :
    AuthorizeResult :=
  if ¬truthy p.clientId ∨ ¬truthy p.redirectUri then .missingParams
  else
    .redirect (s2l "https://accounts.google.com/o/oauth2/v2/auth")
      [(s2l "client_id", googleClientId),
       (s2l "response_type", s2l "code"),
       (s2l "scope", s2l "openid email profile"),
       (s2l "redirect_uri", origin ++ s2l "/callback"),
       (s2l "state", stringifyRelayState
         ⟨p.clientId.getD [], p.redirectUri.getD [], p.state,
          p.codeChallenge, p.codeChallengeMethod⟩)]

/-- `JSON.stringify` of the state object built by the Cognito variant's
`handleAuthorize` (keys `originalState`, `originalRedirectUri`,
`originalClientId`, `codeChallenge`, `codeChallengeMethod`). -/
def stringifyCognitoState (state : Option Str) (redirectUri clientId : Str)
    (cc ccm : Option Str) : Str :=
  s2l "\x7b\"originalState\":" ++ jstrOrNull state ++
    s2l ",\"originalRedirectUri\":" ++ jstr redirectUri ++
    s2l ",\"originalClientId\":" ++ jstr clientId ++
    s2l ",\"codeChallenge\":" ++ jstrOrNull cc ++
    s2l ",\"codeChallengeMethod\":" ++ jstrOrNull ccm ++ s2l "\x7d"

/-- `handleAuthorize` of the registry-checking Cognito variant: parameter
check, registry check (401 on unknown client), then the 302 redirect to the
Cognito hosted authorize endpoint. -/
def handleAuthorizeCognito (p : AuthorizeParams) (registry : List Str)
    (origin cognitoClientId : Str) : AuthorizeResult :=
  if ¬truthy p.clientId ∨ ¬truthy p.redirectUri then .missingParams
  else if ¬ registryHas registry (p.clientId.getD []) then .invalidClient
  else
    .redirect (s2l "https://zimitechs-gen2.auth.us-west-2.amazoncognito.com/oauth2/authorize")
      [(s2l "client_id", cognitoClientId),
       (s2l "response_type", s2l "code"),
       (s2l "scope", jsOr p.scope (s2l "openid email profile")),
       (s2l "redirect_uri", origin ++ s2l "/callback"),
       (s2l "state", stringifyCognitoState p.state (p.redirectUri.getD [])
         (p.clientId.getD []) p.codeChallenge p.codeChallengeMethod)]

/-- The form body built by `exchangeCodeForTokens` of the Cognito variant for
the upstream server-to-server token POST. -/
def exchangeCodeForTokensBody (code origin cognitoClientId cognitoClientSecret : Str) :
    List (Str × Str) :=
  [(s2l "grant_type", s2l "authorization_code"),
   (s2l "client_id", cognitoClientId),
   (s2l "client_secret", cognitoClientSecret),
   (s2l "code", code),
   (s2l "redirect_uri", origin ++ s2l "/callback")]

/-- The parsed JSON registration document `handleRegister` reads (all fields
optional; identical in both handler variants). -/
structure RegistrationRequest where
  redirectUris : Option (List Str)
  clientName : Option Str
  scope : Option Str
  grantTypes : Option (List Str)
  responseTypes : Option (List Str)
deriving DecidableEq

/-- The object inserted into `registeredClients` for the new client id. -/
structure StoredClient where
  clientId : Str
  redirectUris : List Str
  clientName : Str
  scope : Str
  grantTypes : List Str
  responseTypes : List Str
  tokenEndpointAuthMethod : Str
  createdAt : Nat
deriving DecidableEq

/-- The fields of the 201 JSON response body of `/register`. -/
structure RegisterResponseBody where
  clientId : Str
  clientIdIssuedAt : Nat
  redirectUris : List Str
  grantTypes : List Str
  responseTypes : List Str
  tokenEndpointAuthMethod : Str
  scope : Str
deriving DecidableEq

/-- Outcome of a `/register` request with a JSON-parseable body. -/
inductive RegisterResult where
  | methodNotAllowed : RegisterResult
  | created (stored : StoredClient) (resp : RegisterResponseBody) : RegisterResult
deriving DecidableEq

/-- JavaScript `a || b` for a nullable array: every array (even the empty one)
is truthy, so only `null`/`undefined` falls back. -/
def jsOrArr (a : Option (List Str)) (b : List Str) : List Str := a.getD b

/-- `handleRegister` (identical in both variants): defaults absent fields,
stores the registration under the fresh `clientId` (generated from
`Date.now()` and `Math.random()`, passed in), and answers 201 with fixed
`grant_types`, `response_types` and `scope` literals. -/
def handleRegister (method : Str) (reg : RegistrationRequest) (clientId : Str)
    (now : Nat) : RegisterResult :=
  if method ≠ s2l "POST" then .methodNotAllowed
  else
    .created
      ⟨clientId, jsOrArr reg.redirectUris [], jsOr reg.clientName (s2l "MCP Client"),
        jsOr reg.scope (s2l "openid profile email"),
        jsOrArr reg.grantTypes [s2l "authorization_code"],
        jsOrArr reg.responseTypes [s2l "code"], s2l "none", now⟩
      ⟨clientId, now / 1000, jsOrArr reg.redirectUris [],
        [s2l "authorization_code"], [s2l "code"], s2l "none",
        s2l "openid profile email"⟩

/-- Outcome of the enhanced `requireAuth` middleware (`index.ts`). -/
inductive AuthResult where
  | errUnauthorized : AuthResult
  | errInvalidToken : AuthResult
  | ok (userInfo : MCPTokenData) : AuthResult
deriving DecidableEq

/-- The enhanced `requireAuth` (`index.ts`): 401 `unauthorized` without a
`Bearer ` header, 401 `invalid_token` when `verifyMCPToken` finds no stored
identity for `authHeader.substring(7)`, otherwise the stored identity. -/
def requireAuthEnhanced (authHeader : Option Str) (store : TokenStore) : AuthResult :=
  match authHeader with
  | none => .errUnauthorized
  | some h =>
    match expectLit (s2l "Bearer ") h with
    | none => .errUnauthorized
    | some token =>
      match verifyMCPToken store token with
      | none => .errInvalidToken
      | some u => .ok u

/-- Outcome of the earlier `requireAuth` middleware (the unnamed index
variant): `pass` means the request proceeds to the MCP agent. -/
inductive SimpleAuthResult where
  | errUnauthorized : SimpleAuthResult
  | errInvalidToken : SimpleAuthResult
  | pass : SimpleAuthResult
deriving DecidableEq

/-- The earlier `requireAuth`: checks only that a non-empty token follows
`Bearer `; it never consults any token store. -/
def requireAuthSimple (authHeader : Option Str) : SimpleAuthResult :=
  match authHeader with
  | none => .errUnauthorized
  | some h =>
    match expectLit (s2l "Bearer ") h with
    | none => .errUnauthorized
    | some token => if token = [] then .errInvalidToken else .pass

/-! ## The `/callback` pipeline of the Google-handler variant -/
/-- The deserialized upstream token-exchange response body. -/
structure GoogleTokenResponse where
  accessToken : Str
  idToken : Option Str
deriving DecidableEq

/-- The deserialized Google userinfo claims used by the callback (the `email`
field is asserted present with the TS non-null assertion at its uses). -/
structure GoogleUserInfo where
  sub : Str
  email : Str
  name : Option Str
  givenName : Option Str
deriving DecidableEq

/-- Oracle outcomes of the three upstream network calls awaited sequentially
during one `/callback` handling: the Google code-for-token exchange, the
Google userinfo request, and the Cognito identity-pool GetId call. -/
structure CallbackNet where
  exchangeOk : Bool
  exchangeTokens : GoogleTokenResponse
  userinfoOk : Bool
  userinfo : GoogleUserInfo
  getIdOk : Bool
  getIdIdentityId : Option Str
deriving DecidableEq

/-- `exchangeGoogleCodeForTokens`: throws (`.error`) unless the upstream
response is 2xx. -/
def exchangeGoogleCodeForTokens (ok : Bool) (tokens : GoogleTokenResponse) :
    Except Unit GoogleTokenResponse :=
  if ok then .ok tokens else .error ()

/-- `getGoogleUserInfo`: throws unless the upstream response is 2xx. -/
def getGoogleUserInfo (ok : Bool) (ui : GoogleUserInfo) : Except Unit GoogleUserInfo :=
  if ok then .ok ui else .error ()

/-- `getCognitoIdentityId`: throws when the GetId call is non-2xx, and also
when the 2xx response body carries no truthy `IdentityId`. -/
def getCognitoIdentityId (ok : Bool) (identityId : Option Str) : Except Unit Str :=
  if ok then
    match identityId with
    | none => .error ()
    | some iid => if iid = [] then .error () else .ok iid
  else .error ()

/-- `createMCPAuthCode` (Google-handler variant): base64 of the JSON of the
four identity fields plus the `Date.now()` issuance timestamp; `none` models
`btoa` throwing on a character above U+00FF. -/
def createMCPAuthCode (tokenData : CreateMCPAuthCodeInput) (now : Nat) : Option Str :=
  btoa (stringifyMCPTokenData
    ⟨tokenData.cognitoIdentityId, tokenData.googleUserId, tokenData.email,
     tokenData.name, now⟩)

/-- Outcome of a `/callback` request: a plain-text error response, or the 302
redirect back to the MCP client with the freshly minted code (and the caller
state when truthy). -/
inductive CallbackResult where
  | error (status : Nat) : CallbackResult
  | redirect (uri : Str) (code : Str) (state : Option Str) : CallbackResult
deriving DecidableEq

/-- `handleCallback` of the Google-handler variant.  Any exception inside the
`try` block (state parse, upstream exchange, userinfo, GetId, `btoa`) is
caught and answered with status 500. -/
def handleCallbackGoogle (code state errParam : Option Str) (net : CallbackNet)
    (now : Nat) : CallbackResult :=
  if truthy errParam then .error 400
  else if ¬truthy code ∨ ¬truthy state then .error 400
  else
    match parseRelayState (state.getD []) with
    | none => .error 500
    | some r =>
      match exchangeGoogleCodeForTokens net.exchangeOk net.exchangeTokens with
      | .error _ => .error 500
      | .ok _tokens =>
        match getGoogleUserInfo net.userinfoOk net.userinfo with
        | .error _ => .error 500
        | .ok ui =>
          match getCognitoIdentityId net.getIdOk net.getIdIdentityId with
          | .error _ => .error 500
          | .ok cognitoIdentityId =>
            match createMCPAuthCode
                ⟨cognitoIdentityId, ui.sub, ui.email,
                 jsOr ui.name (jsOr ui.givenName ui.email)⟩ now with
            | none => .error 500
            | some mcpAuthCode =>
              .redirect r.mcpRedirectUri mcpAuthCode
                (if truthy r.mcpState then r.mcpState else none)

/-- Whether a `/callback` outcome handed an authorization code to the
downstream client. -/
def issuedRedirect : CallbackResult → Bool
  | .redirect _ _ _ => true
  | .error _ => false

/-! ## Shared concrete example values -/
/-- A concrete decoded auth-code payload. -/
def exampleTokenData : MCPTokenData :=
  ⟨s2l "us-west-2:abc", s2l "g-sub-1", s2l "a@b.com", s2l "Ann", 1234⟩

/-- The base64 auth code encoding `exampleTokenData`. -/
def exampleAuthCode : Str := b64encode (stringifyMCPTokenData exampleTokenData)

/-- Concrete well-formed `/token` form parameters carrying `exampleAuthCode`. -/
def exampleTokenParams : TokenParams :=
  ⟨some (s2l "authorization_code"), some exampleAuthCode, some (s2l "client_1"), none, none⟩

theorem b64Val_b64Char : ∀ n < 64, b64Val (b64Char n) = some n := by decide

theorem b64Char_ne_pad : ∀ n < 64, b64Char n ≠ 61 := by decide

theorem b64_roundtrip : ∀ s : Str, (∀ b ∈ s, b < 256) → b64decode (b64encode s) = some s := by
  intro s
  induction s using b64encode.induct with
  | case1 => intro _; rfl
  | case2 a =>
    intro h
    have ha : a < 256 := h a (by simp)
    have h1 : a / 4 < 64 := by omega
    have h2 : a % 4 * 16 < 64 := by omega
    simp only [b64encode, b64decode, b64Val_b64Char _ h1, b64Val_b64Char _ h2]
    simp
    omega
  | case3 a b =>
    intro h
    have ha : a < 256 := h a (by simp)
    have hb : b < 256 := h b (by simp)
    have h1 : a / 4 < 64 := by omega
    have h2 : a % 4 * 16 + b / 16 < 64 := by omega
    have h3 : b % 16 * 4 < 64 := by omega
    simp only [b64encode, b64decode, b64Val_b64Char _ h1, b64Val_b64Char _ h2,
      b64Val_b64Char _ h3]
    rw [if_neg (by have := b64Char_ne_pad _ h3; simp [this])]
    simp
    omega
  | case4 a b c rest ih =>
    intro h
    have ha : a < 256 := h a (by simp)
    have hb : b < 256 := h b (by simp)
    have hc : c < 256 := h c (by simp)
    have h1 : a / 4 < 64 := by omega
    have h2 : a % 4 * 16 + b / 16 < 64 := by omega
    have h3 : b % 16 * 4 + c / 64 < 64 := by omega
    have h4 : c % 64 < 64 := by omega
    simp only [b64encode, b64decode, b64Val_b64Char _ h1, b64Val_b64Char _ h2,
      b64Val_b64Char _ h3, b64Val_b64Char _ h4]
    rw [if_neg (by have := b64Char_ne_pad _ h3; simp [this])]
    rw [if_neg (by have := b64Char_ne_pad _ h4; simp [this])]
    rw [ih (by intro x hx; exact h x (by simp [hx]))]
    simp
    omega

theorem btoa_atob (s e : Str) (h : btoa s = some e) : atob e = some s := by
  unfold btoa at h
  by_cases hall : s.all (fun c => c < 256)
  · rw [if_pos hall] at h
    cases h
    exact b64_roundtrip s (by intro b hb; simpa using List.all_eq_true.mp hall b hb)
  · rw [if_neg hall] at h
    cases h

theorem hexVal_upper : ∀ n < 16, hexVal (hexDigitUpper n) = some n := by decide

theorem hexVal_lower : ∀ n < 16, hexVal (hexDigitLower n) = some n := by decide

theorem utf8EncodeChar_lt256 (c : Nat) (h : c < 1114112) : ∀ b ∈ utf8EncodeChar c, b < 256 := by
  intro b hb
  unfold utf8EncodeChar at hb
  split at hb
  · simp at hb; omega
  · split at hb
    · simp at hb; omega
    · split at hb
      · simp at hb; omega
      · simp at hb; omega

theorem utf8Encode_lt256 (s : Str) (h : ∀ c ∈ s, c < 1114112) : ∀ b ∈ utf8Encode s, b < 256 := by
  induction s with
  | nil => intro b hb; simp [utf8Encode] at hb
  | cons c cs ih =>
    intro b hb
    simp only [utf8Encode, List.mem_append] at hb
    rcases hb with hb | hb
    · exact utf8EncodeChar_lt256 c (h c (by simp)) b hb
    · exact ih (by intro x hx; exact h x (by simp [hx])) b hb

theorem utf8EncodeChar_ne_nil (c : Nat) : utf8EncodeChar c ≠ [] := by
  unfold utf8EncodeChar
  split_ifs <;> simp

theorem utf8DecodeChar_encodeChar (c : Nat) (h : c < 1114112) (rest : Str) :
    utf8DecodeChar (utf8EncodeChar c ++ rest) = some (c, rest) := by
  unfold utf8EncodeChar
  by_cases h1 : c < 128
  · rw [if_pos h1]
    simp only [List.cons_append, List.nil_append, utf8DecodeChar]
    rw [if_pos h1]
  · rw [if_neg h1]
    by_cases h2 : c < 2048
    · rw [if_pos h2]
      simp only [List.cons_append, List.nil_append, utf8DecodeChar]
      rw [if_neg (by omega), if_neg (by omega), if_pos (by omega), if_pos (by omega)]
      have e : (192 + c / 64 - 192) * 64 + (128 + c % 64 - 128) = c := by omega
      rw [e]
    · rw [if_neg h2]
      by_cases h3 : c < 65536
      · rw [if_pos h3]
        simp only [List.cons_append, List.nil_append, utf8DecodeChar]
        rw [if_neg (by omega), if_neg (by omega), if_neg (by omega), if_pos (by omega),
          if_pos (by refine ⟨⟨by omega, by omega⟩, by omega, by omega⟩)]
        have e : (224 + c / 4096 - 224) * 4096 + (128 + c / 64 % 64 - 128) * 64 +
            (128 + c % 64 - 128) = c := by omega
        rw [e]
      · rw [if_neg h3]
        simp only [List.cons_append, List.nil_append, utf8DecodeChar]
        rw [if_neg (by omega), if_neg (by omega), if_neg (by omega), if_neg (by omega),
          if_pos (by omega),
          if_pos (by refine ⟨⟨by omega, by omega⟩, ⟨by omega, by omega⟩, by omega, by omega⟩)]
        have e : (240 + c / 262144 - 240) * 262144 + (128 + c / 4096 % 64 - 128) * 4096 +
            (128 + c / 64 % 64 - 128) * 64 + (128 + c % 64 - 128) = c := by omega
        rw [e]

theorem utf8DecodeFuel_encode (s : Str) : ∀ fuel, (∀ c ∈ s, c < 1114112) →
    s.length ≤ fuel → utf8DecodeFuel fuel (utf8Encode s) = some s := by
  induction s with
  | nil => intro fuel _ _; cases fuel <;> rfl
  | cons c cs ih =>
    intro fuel h hle
    obtain ⟨f, rfl⟩ : ∃ f, fuel = f + 1 := ⟨fuel - 1, by simp at hle; omega⟩
    obtain ⟨b, bs, he⟩ : ∃ b bs, utf8EncodeChar c ++ utf8Encode cs = b :: bs := by
      cases hcc : utf8EncodeChar c with
      | nil => exact absurd hcc (utf8EncodeChar_ne_nil c)
      | cons b bs' => exact ⟨b, bs' ++ utf8Encode cs, by simp [hcc]⟩
    show utf8DecodeFuel (f + 1) (utf8EncodeChar c ++ utf8Encode cs) = some (c :: cs)
    rw [he, utf8DecodeFuel, ← he, utf8DecodeChar_encodeChar c (h c (by simp))]
    show (utf8DecodeFuel f (utf8Encode cs)).map (fun t => c :: t) = some (c :: cs)
    rw [ih f (by intro x hx; exact h x (by simp [hx])) (by simp at hle; omega)]
    rfl

theorem utf8Encode_length_ge (s : Str) : s.length ≤ (utf8Encode s).length := by
  induction s with
  | nil => simp [utf8Encode]
  | cons c cs ih =>
    simp only [utf8Encode, List.length_append, List.length_cons]
    have : 1 ≤ (utf8EncodeChar c).length := by
      cases hcc : utf8EncodeChar c with
      | nil => exact absurd hcc (utf8EncodeChar_ne_nil c)
      | cons b bs => simp
    omega

theorem utf8_roundtrip (s : Str) (h : ∀ c ∈ s, c < 1114112) :
    utf8Decode (utf8Encode s) = some s :=
  utf8DecodeFuel_encode s (utf8Encode s).length h (utf8Encode_length_ge s)

theorem formUnreserved_not_special (b : Nat) (h : formUnreserved b = true) :
    b ≠ 37 ∧ b ≠ 43 := by
  unfold formUnreserved at h
  simp only [Bool.or_eq_true, Bool.and_eq_true, decide_eq_true_eq] at h
  omega

theorem pctDecodeTok_encodeByte (b : Nat) (hb : b < 256) (rest : Str) :
    pctDecodeTok ((if formUnreserved b then [b]
      else if b = 32 then [43]
      else [37, hexDigitUpper (b / 16), hexDigitUpper (b % 16)]) ++ rest) = some (b, rest) := by
  by_cases h1 : formUnreserved b = true
  · rw [if_pos h1]
    obtain ⟨hne37, hne43⟩ := formUnreserved_not_special b h1
    simp only [List.cons_append, List.nil_append, pctDecodeTok]
    rw [if_neg hne37, if_neg hne43]
  · rw [if_neg h1]
    by_cases h2 : b = 32
    · rw [if_pos h2]
      simp only [List.cons_append, List.nil_append, pctDecodeTok]
      simp [h2]
    · rw [if_neg h2]
      simp only [List.cons_append, List.nil_append, pctDecodeTok]
      simp only [if_true, hexVal_upper (b / 16) (by omega), hexVal_upper (b % 16) (by omega)]
      have e : b / 16 * 16 + b % 16 = b := by omega
      rw [e]

theorem pctDecodeFuel_encode (bs : Str) : ∀ fuel, (∀ b ∈ bs, b < 256) →
    bs.length ≤ fuel → pctDecodeFuel fuel (percentEncodeBytes bs) = bs := by
  induction bs with
  | nil => intro fuel _ _; cases fuel <;> rfl
  | cons b bs ih =>
    intro fuel h hle
    obtain ⟨f, rfl⟩ : ∃ f, fuel = f + 1 := ⟨fuel - 1, by simp at hle; omega⟩
    have hb : b < 256 := h b (by simp)
    obtain ⟨c, cs, he⟩ : ∃ c cs, percentEncodeBytes (b :: bs) = c :: cs := by
      rw [percentEncodeBytes]
      split_ifs <;> exact ⟨_, _, rfl⟩
    rw [he, pctDecodeFuel, ← he, percentEncodeBytes,
      pctDecodeTok_encodeByte b hb (percentEncodeBytes bs)]
    show b :: pctDecodeFuel f (percentEncodeBytes bs) = b :: bs
    rw [ih f (by intro x hx; exact h x (by simp [hx])) (by simp at hle; omega)]

theorem percentEncodeBytes_length_ge (bs : Str) : bs.length ≤ (percentEncodeBytes bs).length := by
  induction bs with
  | nil => simp [percentEncodeBytes]
  | cons b bs ih =>
    rw [percentEncodeBytes]
    split_ifs <;> simp <;> omega

theorem percent_roundtrip (bs : Str) (h : ∀ b ∈ bs, b < 256) :
    percentDecodeBytes (percentEncodeBytes bs) = bs :=
  pctDecodeFuel_encode bs (percentEncodeBytes bs).length h (percentEncodeBytes_length_ge bs)

theorem urlParamTransport_id (s : Str) (h : ∀ c ∈ s, c < 1114112) :
    urlParamTransport s = some s := by
  unfold urlParamTransport
  rw [percent_roundtrip (utf8Encode s) (utf8Encode_lt256 s h)]
  exact utf8_roundtrip s h

theorem escapeJChar_ne_nil (c : Nat) : escapeJChar c ≠ [] := by
  unfold escapeJChar
  split_ifs <;> simp

theorem jTok_escapeJChar (c : Nat) (rest : Str) :
    jTok (escapeJChar c ++ rest) = some (some c, rest) := by
  unfold escapeJChar
  by_cases h1 : c = 34
  · rw [if_pos h1]
    simp only [List.cons_append, List.nil_append, jTok]
    simp [h1]
  · rw [if_neg h1]
    by_cases h2 : c = 92
    · rw [if_pos h2]
      simp only [List.cons_append, List.nil_append, jTok]
      simp [h2]
    · rw [if_neg h2]
      by_cases h3 : c = 8
      · rw [if_pos h3]
        simp only [List.cons_append, List.nil_append, jTok]
        simp [h3]
      · rw [if_neg h3]
        by_cases h4 : c = 9
        · rw [if_pos h4]
          simp only [List.cons_append, List.nil_append, jTok]
          simp [h4]
        · rw [if_neg h4]
          by_cases h5 : c = 10
          · rw [if_pos h5]
            simp only [List.cons_append, List.nil_append, jTok]
            simp [h5]
          · rw [if_neg h5]
            by_cases h6 : c = 12
            · rw [if_pos h6]
              simp only [List.cons_append, List.nil_append, jTok]
              simp [h6]
            · rw [if_neg h6]
              by_cases h7 : c = 13
              · rw [if_pos h7]
                simp only [List.cons_append, List.nil_append, jTok]
                simp [h7]
              · rw [if_neg h7]
                by_cases h8 : c < 32
                · rw [if_pos h8]
                  simp only [jhex4, List.cons_append, List.nil_append, jTok]
                  simp only [if_neg (by omega : ¬(92 : Nat) = 34), if_pos rfl]
                  simp only [if_neg (by omega : ¬(117 : Nat) = 34),
                    if_neg (by omega : ¬(117 : Nat) = 92),
                    if_neg (by omega : ¬(117 : Nat) = 47),
                    if_neg (by omega : ¬(117 : Nat) = 98),
                    if_neg (by omega : ¬(117 : Nat) = 116),
                    if_neg (by omega : ¬(117 : Nat) = 110),
                    if_neg (by omega : ¬(117 : Nat) = 102),
                    if_neg (by omega : ¬(117 : Nat) = 114), if_pos rfl]
                  rw [hexVal_lower _ (by omega), hexVal_lower _ (by omega),
                    hexVal_lower _ (by omega), hexVal_lower _ (by omega)]
                  simp only [if_true]
                  have e : c / 4096 % 16 * 4096 + c / 256 % 16 * 256 +
                      c / 16 % 16 * 16 + c % 16 = c := by omega
                  show some (some (c / 4096 % 16 * 4096 + c / 256 % 16 * 256 +
                      c / 16 % 16 * 16 + c % 16), rest) = some (some c, rest)
                  rw [e]
                · rw [if_neg h8]
                  by_cases h9 : 55296 ≤ c ∧ c ≤ 57343
                  · rw [if_pos h9]
                    simp only [jhex4, List.cons_append, List.nil_append, jTok]
                    simp only [if_neg (by omega : ¬(92 : Nat) = 34), if_pos rfl]
                    simp only [if_neg (by omega : ¬(117 : Nat) = 34),
                      if_neg (by omega : ¬(117 : Nat) = 92),
                      if_neg (by omega : ¬(117 : Nat) = 47),
                      if_neg (by omega : ¬(117 : Nat) = 98),
                      if_neg (by omega : ¬(117 : Nat) = 116),
                      if_neg (by omega : ¬(117 : Nat) = 110),
                      if_neg (by omega : ¬(117 : Nat) = 102),
                      if_neg (by omega : ¬(117 : Nat) = 114), if_pos rfl]
                    rw [hexVal_lower _ (by omega), hexVal_lower _ (by omega),
                      hexVal_lower _ (by omega), hexVal_lower _ (by omega)]
                    simp only [if_true]
                    have e : c / 4096 % 16 * 4096 + c / 256 % 16 * 256 +
                        c / 16 % 16 * 16 + c % 16 = c := by omega
                    show some (some (c / 4096 % 16 * 4096 + c / 256 % 16 * 256 +
                        c / 16 % 16 * 16 + c % 16), rest) = some (some c, rest)
                    rw [e]
                  · rw [if_neg h9]
                    simp only [List.cons_append, List.nil_append, jTok]
                    rw [if_neg h1, if_neg h2, if_neg h8]

theorem jStrBodyFuel_escape (x : Str) : ∀ fuel rest, x.length < fuel →
    jStrBodyFuel fuel (escapeJ x ++ (34 :: rest)) = some (x, rest) := by
  induction x with
  | nil =>
    intro fuel rest hf
    obtain ⟨f, rfl⟩ : ∃ f, fuel = f + 1 := ⟨fuel - 1, by omega⟩
    show jStrBodyFuel (f + 1) (34 :: rest) = some ([], rest)
    rw [jStrBodyFuel]
    simp [jTok]
  | cons c cs ih =>
    intro fuel rest hf
    obtain ⟨f, rfl⟩ : ∃ f, fuel = f + 1 := ⟨fuel - 1, by simp at hf; omega⟩
    obtain ⟨b, bs, he⟩ : ∃ b bs,
        escapeJChar c ++ (escapeJ cs ++ (34 :: rest)) = b :: bs := by
      cases hcc : escapeJChar c with
      | nil => exact absurd hcc (escapeJChar_ne_nil c)
      | cons b bs' => exact ⟨b, bs' ++ (escapeJ cs ++ (34 :: rest)), by simp [hcc]⟩
    simp only [escapeJ, List.append_assoc]
    rw [he, jStrBodyFuel, ← he, jTok_escapeJChar c]
    show (match jStrBodyFuel f (escapeJ cs ++ (34 :: rest)) with
      | none => none
      | some (s, rest3) => some (c :: s, rest3)) = some (c :: cs, rest)
    rw [ih f rest (by simp at hf; omega)]

theorem escapeJ_length_ge (s : Str) : s.length ≤ (escapeJ s).length := by
  induction s with
  | nil => simp [escapeJ]
  | cons c cs ih =>
    simp only [escapeJ, List.length_append, List.length_cons]
    have : 1 ≤ (escapeJChar c).length := by
      cases hcc : escapeJChar c with
      | nil => exact absurd hcc (escapeJChar_ne_nil c)
      | cons b bs => simp
    omega

theorem parseJStr_jstr (x rest : Str) : parseJStr (jstr x ++ rest) = some (x, rest) := by
  show parseJStr (34 :: ((escapeJ x ++ [34]) ++ rest)) = some (x, rest)
  rw [parseJStr]
  rw [if_pos rfl]
  have ha : (escapeJ x ++ [34]) ++ rest = escapeJ x ++ (34 :: rest) := by simp
  rw [ha]
  apply jStrBodyFuel_escape
  have := escapeJ_length_ge x
  simp only [List.length_append, List.length_cons]
  omega

theorem parseJStrOrNull_some (x rest : Str) :
    parseJStrOrNull (jstrOrNull (some x) ++ rest) = some (some x, rest) := by
  show parseJStrOrNull (34 :: (escapeJ x ++ [34] ++ rest)) = some (some x, rest)
  rw [parseJStrOrNull]
  rw [show (34 : Nat) :: (escapeJ x ++ [34] ++ rest) = jstr x ++ rest by simp [jstr]]
  rw [parseJStr_jstr]
  rfl

theorem parseJStrOrNull_none (rest : Str) :
    parseJStrOrNull (jstrOrNull none ++ rest) = some (none, rest) := rfl

theorem natToDecFuel_congr (n : Nat) : ∀ f1 f2, n < f1 → n < f2 →
    natToDecFuel f1 n = natToDecFuel f2 n := by
  induction n using Nat.strong_induction_on with
  | _ n ih =>
    intro f1 f2 h1 h2
    obtain ⟨a, rfl⟩ : ∃ a, f1 = a + 1 := ⟨f1 - 1, by omega⟩
    obtain ⟨b, rfl⟩ : ∃ b, f2 = b + 1 := ⟨f2 - 1, by omega⟩
    by_cases h : n < 10
    · simp only [natToDecFuel, if_pos h]
    · simp only [natToDecFuel, if_neg h]
      have hlt : n / 10 < n := Nat.div_lt_self (by omega) (by omega)
      rw [ih (n / 10) hlt a b (by omega) (by omega)]

theorem natToDec_eq (n : Nat) :
    natToDec n = if n < 10 then [48 + n] else natToDec (n / 10) ++ [48 + n % 10] := by
  by_cases h : n < 10
  · rw [if_pos h]
    show natToDecFuel (n + 1) n = _
    rw [natToDecFuel, if_pos h]
  · rw [if_neg h]
    show natToDecFuel (n + 1) n = natToDecFuel (n / 10 + 1) (n / 10) ++ [48 + n % 10]
    rw [natToDecFuel, if_neg h]
    have hlt : n / 10 < n := Nat.div_lt_self (by omega) (by omega)
    rw [natToDecFuel_congr (n / 10) n (n / 10 + 1) (by omega) (by omega)]

theorem parseDecAux_append (n : Nat) : ∀ acc rest,
    parseDecAux acc (natToDec n ++ rest) =
      parseDecAux (acc * 10 ^ (natToDec n).length + n) rest := by
  induction n using Nat.strong_induction_on with
  | _ n ih =>
    intro acc rest
    by_cases h : n < 10
    · rw [natToDec_eq, if_pos h]
      simp only [List.cons_append, List.nil_append, parseDecAux, List.length_cons,
        List.length_nil]
      rw [if_pos (by omega)]
      have e1 : acc * 10 + (48 + n - 48) = acc * 10 ^ 1 + n := by omega
      rw [e1]
      simp
    · rw [natToDec_eq, if_neg h]
      have hlt : n / 10 < n := Nat.div_lt_self (by omega) (by omega)
      rw [List.append_assoc, List.cons_append, List.nil_append,
        ih (n / 10) hlt acc ((48 + n % 10) :: rest)]
      simp only [parseDecAux]
      rw [if_pos (by omega)]
      have e2 : (acc * 10 ^ (natToDec (n / 10)).length + n / 10) * 10 + (48 + n % 10 - 48)
          = acc * 10 ^ ((natToDec (n / 10)).length + 1) + n := by
        rw [pow_succ]
        have : n / 10 * 10 + n % 10 = n := by omega
        ring_nf
        omega
      rw [e2]
      congr 1
      simp [List.length_append]

theorem natToDec_head_digit (n : Nat) :
    ∃ c rest, natToDec n = c :: rest ∧ 48 ≤ c ∧ c ≤ 57 := by
  induction n using Nat.strong_induction_on with
  | _ n ih =>
    by_cases h : n < 10
    · exact ⟨48 + n, [], by rw [natToDec_eq, if_pos h], by omega, by omega⟩
    · obtain ⟨c, rest, he, hc1, hc2⟩ := ih (n / 10) (Nat.div_lt_self (by omega) (by omega))
      exact ⟨c, rest ++ [48 + n % 10], by rw [natToDec_eq, if_neg h, he]; rfl, hc1, hc2⟩

theorem parseDec_natToDec (n : Nat) (c0 : Nat) (rest : Str) (hc : ¬(48 ≤ c0 ∧ c0 ≤ 57)) :
    parseDec (natToDec n ++ (c0 :: rest)) = some (n, c0 :: rest) := by
  obtain ⟨c, ds, he, hc1, hc2⟩ := natToDec_head_digit n
  have hsplit : natToDec n ++ (c0 :: rest) = c :: (ds ++ (c0 :: rest)) := by
    rw [he]; rfl
  rw [hsplit, parseDec, if_pos ⟨hc1, hc2⟩]
  have key : parseDecAux (c - 48) (ds ++ (c0 :: rest)) = (n, c0 :: rest) := by
    have h0 : parseDecAux 0 (natToDec n ++ (c0 :: rest)) =
        parseDecAux (0 * 10 ^ (natToDec n).length + n) (c0 :: rest) :=
      parseDecAux_append n 0 (c0 :: rest)
    rw [hsplit] at h0
    simp only [parseDecAux] at h0
    rw [if_pos ⟨hc1, hc2⟩] at h0
    simp only [Nat.zero_mul, Nat.zero_add] at h0
    rw [if_neg hc] at h0
    exact h0
  rw [key]

theorem expectLit_append (lit rest : Str) : expectLit lit (lit ++ rest) = some rest := by
  induction lit with
  | nil => rfl
  | cons l ls ih =>
    simp only [List.cons_append, expectLit, if_pos rfl]
    exact ih

theorem expectLit_self (lit : Str) : expectLit lit lit = some [] := by
  have := expectLit_append lit []
  simpa using this

theorem parseDec_natToDec_brace (n : Nat) :
    parseDec (natToDec n ++ s2l "\x7d") = some (n, s2l "\x7d") := by
  have h : s2l "\x7d" = [125] := rfl
  rw [h]
  exact parseDec_natToDec n 125 [] (by omega)

theorem parseMCPTokenData_stringify (d : MCPTokenData) :
    parseMCPTokenData (stringifyMCPTokenData d) = some d := by
  simp only [stringifyMCPTokenData, parseMCPTokenData, List.append_assoc, expectLit_append,
    parseJStr_jstr, parseDec_natToDec_brace, expectLit_self]

theorem parseJStrOrNull_jstrOrNull (o : Option Str) (rest : Str) :
    parseJStrOrNull (jstrOrNull o ++ rest) = some (o, rest) := by
  cases o with
  | none => rfl
  | some x => exact parseJStrOrNull_some x rest

theorem parseRelayState_stringify (r : RelayState) :
    parseRelayState (stringifyRelayState r) = some r := by
  simp only [stringifyRelayState, parseRelayState, List.append_assoc, expectLit_append,
    parseJStr_jstr, parseJStrOrNull_jstrOrNull, expectLit_self]

theorem wfChar_lt (c : Nat) (h : wfChar c) : c < 1114112 := by
  unfold wfChar at h; omega

theorem char_toNat_lt (c : Char) : c.toNat < 1114112 := by
  have h := c.valid
  rcases h with h | ⟨h1, h2⟩
  · have : c.val.toNat < 55296 := h
    simp [Char.toNat]
    omega
  · have : c.val.toNat < 1114112 := h2
    simp [Char.toNat]
    omega

theorem s2l_lt (s : String) : ∀ c ∈ s2l s, c < 1114112 := by
  intro c hc
  simp only [s2l, List.mem_map] at hc
  obtain ⟨ch, _, rfl⟩ := hc
  exact char_toNat_lt ch

theorem hexDigitLower_lt (n : Nat) (h : n < 16) : hexDigitLower n < 1114112 := by
  unfold hexDigitLower
  split_ifs <;> omega

theorem jhex4_lt (n : Nat) : ∀ c ∈ jhex4 n, c < 1114112 := by
  intro c hc
  simp only [jhex4, List.mem_cons, List.not_mem_nil, or_false] at hc
  rcases hc with rfl | rfl | rfl | rfl <;> exact hexDigitLower_lt _ (by omega)

theorem escapeJChar_lt (c : Nat) (h : c < 1114112) : ∀ x ∈ escapeJChar c, x < 1114112 := by
  intro x hx
  unfold escapeJChar at hx
  split_ifs at hx <;>
    first
      | (simp only [List.mem_cons, List.not_mem_nil, or_false] at hx; omega)
      | (simp only [List.mem_cons, List.not_mem_nil, or_false] at hx
         rcases hx with rfl | rfl | hx
         · omega
         · omega
         · exact jhex4_lt c x hx)

theorem escapeJ_lt (s : Str) (h : ∀ c ∈ s, c < 1114112) : ∀ x ∈ escapeJ s, x < 1114112 := by
  induction s with
  | nil => intro x hx; simp [escapeJ] at hx
  | cons c cs ih =>
    intro x hx
    simp only [escapeJ, List.mem_append] at hx
    rcases hx with hx | hx
    · exact escapeJChar_lt c (h c (by simp)) x hx
    · exact ih (by intro y hy; exact h y (by simp [hy])) x hx

theorem jstr_lt (s : Str) (h : ∀ c ∈ s, c < 1114112) : ∀ x ∈ jstr s, x < 1114112 := by
  intro x hx
  simp only [jstr, List.mem_cons, List.mem_append, List.not_mem_nil, or_false] at hx
  rcases hx with rfl | hx | rfl
  · omega
  · exact escapeJ_lt s h x hx
  · omega

theorem jstrOrNull_lt (o : Option Str) (h : ∀ s, o = some s → ∀ c ∈ s, c < 1114112) :
    ∀ x ∈ jstrOrNull o, x < 1114112 := by
  cases o with
  | none => exact s2l_lt "null"
  | some s => exact jstr_lt s (h s rfl)

theorem stringifyRelayState_lt (r : RelayState)
    (h1 : ∀ c ∈ r.mcpClientId, c < 1114112)
    (h2 : ∀ c ∈ r.mcpRedirectUri, c < 1114112)
    (h3 : ∀ s, r.mcpState = some s → ∀ c ∈ s, c < 1114112)
    (h4 : ∀ s, r.codeChallenge = some s → ∀ c ∈ s, c < 1114112)
    (h5 : ∀ s, r.codeChallengeMethod = some s → ∀ c ∈ s, c < 1114112) :
    ∀ c ∈ stringifyRelayState r, c < 1114112 := by
  intro c hc
  simp only [stringifyRelayState, List.mem_append] at hc
  rcases hc with (((((((((hc | hc) | hc) | hc) | hc) | hc) | hc) | hc) | hc) | hc) | hc
  · exact s2l_lt _ c hc
  · exact jstr_lt _ h1 c hc
  · exact s2l_lt _ c hc
  · exact jstr_lt _ h2 c hc
  · exact s2l_lt _ c hc
  · exact jstrOrNull_lt _ h3 c hc
  · exact s2l_lt _ c hc
  · exact jstrOrNull_lt _ h4 c hc
  · exact s2l_lt _ c hc
  · exact jstrOrNull_lt _ h5 c hc
  · exact s2l_lt _ c hc

theorem truthy_some_of_ne (c : Str) (h : c ≠ []) : truthy (some c) = true := by
  cases c with
  | nil => exact absurd rfl h
  | cons a as => rfl

theorem assocGet_not_mem {α : Type} (l : List (Str × α)) (k : Str)
    (h : ∀ v, (k, v) ∉ l) : assocGet l k = none := by
  induction l with
  | nil => rfl
  | cons p rest ih =>
    obtain ⟨k2, v⟩ := p
    rw [assocGet]
    by_cases hk : k2 = k
    · subst hk
      exact absurd (by simp) (h v)
    · rw [if_neg hk]
      exact ih (by intro v2 hv2; exact h v2 (by simp [hv2]))

/-! ## The claims -/
/-- Claim C9: a POST to `/token` whose `grant_type` parameter is absent or not
equal to "authorization_code" is answered 400 with JSON body
`{"error":"invalid_request"}` regardless of the other parameters, in both
handler variants; the Google variant additionally leaves the token store
unchanged. -/
theorem claim_C9 (p : TokenParams) (freshToken : Str) (store : TokenStore)
    (registry : List Str)
    (h : p.grantType ≠ some (s2l "authorization_code")) :
    handleTokenGoogle (s2l "POST") p freshToken store = (.invalidRequest, store) ∧
    handleTokenCognito (s2l "POST") p registry freshToken = .invalidRequest ∧
    tokenStatus .invalidRequest = 400 ∧
    tokenBody .invalidRequest = s2l "\x7b\"error\":\"invalid_request\"\x7d" := by
  refine ⟨?_, ?_, rfl, rfl⟩
  · unfold handleTokenGoogle
    rw [if_neg (by decide), if_pos (Or.inl h)]
  · unfold handleTokenCognito
    rw [if_neg (by decide), if_pos (Or.inl h)]

/-- Claim C9 witness at `grant_type=refresh_token`. -/
theorem claim_C9_witness :
    handleTokenGoogle (s2l "POST")
        ⟨some (s2l "refresh_token"), some exampleAuthCode, some (s2l "client_1"), none, none⟩
        (s2l "tok") [] = (.invalidRequest, []) ∧
    handleTokenCognito (s2l "POST")
        ⟨some (s2l "refresh_token"), some exampleAuthCode, some (s2l "client_1"), none, none⟩
        [s2l "client_1"] (s2l "tok") = .invalidRequest ∧
    tokenStatus .invalidRequest = 400 ∧
    tokenBody .invalidRequest = s2l "\x7b\"error\":\"invalid_request\"\x7d" :=
  claim_C9 ⟨some (s2l "refresh_token"), some exampleAuthCode, some (s2l "client_1"), none, none⟩
    (s2l "tok") [] [s2l "client_1"] (by decide)

/-- Claim C1 counterexample: in the Google-handler variant actually wired to
the token endpoint, a POST with `grant_type=authorization_code`, a non-empty
well-formed code and a `client_id` never returned by `/register` (the registry
is empty here) is answered 200 with a fresh access token — not 401
`invalid_client` — and the token is stored. -/
theorem claim_C1_counterexample :
    handleTokenGoogle (s2l "POST")
        ⟨some (s2l "authorization_code"), some exampleAuthCode, some (s2l "never_registered"),
         none, none⟩ (s2l "mcp_token_1") [] =
      (.success (s2l "mcp_token_1"), [(s2l "mcp_token_1", exampleTokenData)]) ∧
    tokenStatus (.success (s2l "mcp_token_1")) = 200 := by decide

/-- Claim C1 (amended): in the registry-checking Cognito handler variant, a
POST to `/token` with `grant_type=authorization_code`, a non-empty code, and a
non-empty `client_id` absent from the client registry is answered 401 with
JSON body `{"error":"invalid_client"}` and no access token; the Google-handler
variant performs no registry check at all on `/token`. -/
theorem claim_C1 (p : TokenParams) (registry : List Str) (freshToken cid c : Str)
    (hg : p.grantType = some (s2l "authorization_code"))
    (hc : p.code = some c) (hcne : c ≠ [])
    (hid : p.clientId = some cid) (hidne : cid ≠ [])
    (hreg : registryHas registry cid = false) :
    handleTokenCognito (s2l "POST") p registry freshToken = .invalidClient ∧
    tokenStatus .invalidClient = 401 ∧
    tokenBody .invalidClient = s2l "\x7b\"error\":\"invalid_client\"\x7d" ∧
    (∀ t, handleTokenCognito (s2l "POST") p registry freshToken ≠ .success t) := by
  have hmain : handleTokenCognito (s2l "POST") p registry freshToken = .invalidClient := by
    unfold handleTokenCognito
    rw [if_neg (by decide)]
    rw [if_neg (by
      rw [hg, hc, hid, truthy_some_of_ne c hcne, truthy_some_of_ne cid hidne]
      simp)]
    rw [if_pos (by rw [hid]; simp [hreg])]
  exact ⟨hmain, rfl, rfl, by intro t ht; rw [hmain] at ht; exact TokenResult.noConfusion ht⟩

/-- Claim C1 witness: an unregistered client against an empty registry. -/
theorem claim_C1_witness :
    handleTokenCognito (s2l "POST")
        ⟨some (s2l "authorization_code"), some exampleAuthCode, some (s2l "never_registered"),
         none, none⟩ [] (s2l "tok") = .invalidClient ∧
    tokenStatus .invalidClient = 401 ∧
    tokenBody .invalidClient = s2l "\x7b\"error\":\"invalid_client\"\x7d" ∧
    (∀ t, handleTokenCognito (s2l "POST")
        ⟨some (s2l "authorization_code"), some exampleAuthCode, some (s2l "never_registered"),
         none, none⟩ [] (s2l "tok") ≠ .success t) :=
  claim_C1 ⟨some (s2l "authorization_code"), some exampleAuthCode, some (s2l "never_registered"),
      none, none⟩ [] (s2l "tok") (s2l "never_registered") exampleAuthCode
    rfl rfl (by decide) rfl (by decide) (by decide)

/-- Claim C2 counterexample: the earlier `requireAuth` middleware variant lets
a bearer token that was never issued by any `/token` handler pass straight
through — no 401 `invalid_token` response is produced. -/
theorem claim_C2_counterexample :
    requireAuthSimple (some (s2l "Bearer never_issued_token")) = .pass := by decide

/-- Claim C2 (amended): with the enhanced `requireAuth` middleware of
`index.ts`, a request whose bearer token was never inserted into the token
store fails validation: `verifyMCPToken` returns no identity, and the
middleware answers 401 `invalid_token`; the earlier middleware variant instead
accepts any non-empty bearer token without a lookup. -/
theorem claim_C2 (store : TokenStore) (token : Str)
    (h : ∀ d, (token, d) ∉ store) :
    verifyMCPToken store token = none ∧
    requireAuthEnhanced (some (s2l "Bearer " ++ token)) store = .errInvalidToken := by
  have hget : assocGet store token = none := assocGet_not_mem store token h
  refine ⟨hget, ?_⟩
  show (match expectLit (s2l "Bearer ") (s2l "Bearer " ++ token) with
    | none => AuthResult.errUnauthorized
    | some token =>
      match verifyMCPToken store token with
      | none => AuthResult.errInvalidToken
      | some u => AuthResult.ok u) = .errInvalidToken
  rw [expectLit_append]
  show (match verifyMCPToken store token with
    | none => AuthResult.errInvalidToken
    | some u => AuthResult.ok u) = .errInvalidToken
  unfold verifyMCPToken
  rw [hget]

/-- Claim C2 witness: a never-stored token against the empty store. -/
theorem claim_C2_witness :
    verifyMCPToken [] (s2l "never_issued_token") = none ∧
    requireAuthEnhanced (some (s2l "Bearer " ++ s2l "never_issued_token")) [] =
      .errInvalidToken :=
  claim_C2 [] (s2l "never_issued_token") (by intro d; simp)

/-- Claim C4 counterexample: the Google-handler variant's `/authorize`, given
both `client_id` and `redirect_uri` but a `client_id` that resolves in no
registry (this variant consults none), answers with the 302 upstream redirect,
not 401. -/
theorem claim_C4_counterexample :
    authorizeStatus (handleAuthorizeGoogle
      ⟨some (s2l "never_registered"), some (s2l "https://e.test/cb"), none, none, none, none⟩
      (s2l "https://proxy.example") (s2l "google-client-id")) = 302 := by decide

/-- Claim C4 (amended): in the registry-checking Cognito handler variant, a
GET to `/authorize` with non-empty `client_id` and `redirect_uri` whose
`client_id` is not in the client registry is answered 401 and no upstream
redirect is issued; the Google-handler variant never consults the registry and
redirects upstream for any client id. -/
theorem claim_C4 (p : AuthorizeParams) (registry : List Str) (origin ccid cid ruri : Str)
    (hc : p.clientId = some cid) (hcne : cid ≠ [])
    (hr : p.redirectUri = some ruri) (hrne : ruri ≠ [])
    (hreg : registryHas registry cid = false) :
    handleAuthorizeCognito p registry origin ccid = .invalidClient ∧
    authorizeStatus .invalidClient = 401 ∧
    (∀ base ps, handleAuthorizeCognito p registry origin ccid ≠ .redirect base ps) := by
  have hmain : handleAuthorizeCognito p registry origin ccid = .invalidClient := by
    unfold handleAuthorizeCognito
    rw [if_neg (by
      rw [hc, hr, truthy_some_of_ne cid hcne, truthy_some_of_ne ruri hrne]
      simp)]
    rw [if_pos (by rw [hc]; simp [hreg])]
  exact ⟨hmain, rfl, by
    intro base ps hps
    rw [hmain] at hps
    exact AuthorizeResult.noConfusion hps⟩

/-- Claim C4 witness: an unregistered client against an empty registry. -/
theorem claim_C4_witness :
    handleAuthorizeCognito
        ⟨some (s2l "never_registered"), some (s2l "https://e.test/cb"), none, none, none, none⟩
        [] (s2l "https://proxy.example") (s2l "cognito-client-id") = .invalidClient ∧
    authorizeStatus .invalidClient = 401 ∧
    (∀ base ps, handleAuthorizeCognito
        ⟨some (s2l "never_registered"), some (s2l "https://e.test/cb"), none, none, none, none⟩
        [] (s2l "https://proxy.example") (s2l "cognito-client-id") ≠ .redirect base ps) :=
  claim_C4 ⟨some (s2l "never_registered"), some (s2l "https://e.test/cb"), none, none, none, none⟩
    [] (s2l "https://proxy.example") (s2l "cognito-client-id") (s2l "never_registered")
    (s2l "https://e.test/cb") rfl (by decide) rfl (by decide) (by decide)

/-- Claim C3: in the Google-handler variant, every 200 answer of `/token`
stores the fresh access token mapped to the identity decoded from the code, so
`verifyMCPToken` finds exactly that identity afterwards.  The registry-checking
Cognito variant, however, answers 200 while storing nothing — its `tokenData`
local, built under the comment saying to store the token mapping, is
discarded, so no later lookup of the issued token can ever succeed (second
conjunct, evaluated at a concrete successful exchange). -/
theorem claim_C3 :
    (∀ (p : TokenParams) (freshToken t : Str) (store : TokenStore) (d : MCPTokenData),
      (handleTokenGoogle (s2l "POST") p freshToken store).1 = .success t →
      decodeAuthCode (p.code.getD []) = some d →
      t = freshToken ∧
      (handleTokenGoogle (s2l "POST") p freshToken store).2 = (freshToken, d) :: store ∧
      verifyMCPToken ((freshToken, d) :: store) freshToken = some d) ∧
    (handleTokenCognito (s2l "POST") exampleTokenParams [s2l "client_1"] (s2l "mcp_token_c") =
        .success (s2l "mcp_token_c") ∧
      verifyMCPToken [] (s2l "mcp_token_c") = none) := by
  constructor
  · intro p freshToken t store d hsucc hdec
    unfold handleTokenGoogle at hsucc ⊢
    rw [if_neg (by decide)] at hsucc ⊢
    by_cases hbad : p.grantType ≠ some (s2l "authorization_code") ∨
        ¬truthy p.code ∨ ¬truthy p.clientId
    · rw [if_pos hbad] at hsucc
      exact absurd hsucc (by simp)
    · rw [if_neg hbad] at hsucc ⊢
      rw [hdec] at hsucc ⊢
      refine ⟨?_, rfl, ?_⟩
      · simpa using hsucc.symm
      · unfold verifyMCPToken assocGet
        rw [if_pos rfl]
  · constructor
    · decide
    · rfl

/-- Claim C3 witness: the universal Google-variant conjunct applied at a
concrete exchange, together with the Cognito-variant evaluation. -/
theorem claim_C3_witness :
    (s2l "tok" = s2l "tok" ∧
      (handleTokenGoogle (s2l "POST") exampleTokenParams (s2l "tok") []).2 =
        [(s2l "tok", exampleTokenData)] ∧
      verifyMCPToken [(s2l "tok", exampleTokenData)] (s2l "tok") = some exampleTokenData) ∧
    (handleTokenCognito (s2l "POST") exampleTokenParams [s2l "client_1"] (s2l "mcp_token_c") =
        .success (s2l "mcp_token_c") ∧
      verifyMCPToken [] (s2l "mcp_token_c") = none) :=
  ⟨claim_C3.1 exampleTokenParams (s2l "tok") (s2l "tok") [] exampleTokenData
      (by decide) (by decide),
    claim_C3.2⟩

/-- Claim C5: in the federated callback pipeline, when the consumer userinfo
call fails, the federation GetId exchange fails, or the GetId response lacks a
truthy IdentityId, the whole `/callback` attempt is answered with an error
response (400 or 500) and no authorization code is handed to the downstream
client. -/
theorem claim_C5 (code state errParam : Option Str) (net : CallbackNet) (now : Nat)
    (h : net.userinfoOk = false ∨ net.getIdOk = false ∨
      net.getIdIdentityId = none ∨ net.getIdIdentityId = some []) :
    issuedRedirect (handleCallbackGoogle code state errParam net now) = false ∧
    (handleCallbackGoogle code state errParam net now = .error 400 ∨
      handleCallbackGoogle code state errParam net now = .error 500) := by
  unfold handleCallbackGoogle
  split_ifs with h1 h2
  · exact ⟨rfl, Or.inl rfl⟩
  · exact ⟨rfl, Or.inl rfl⟩
  · cases hps : parseRelayState (state.getD []) with
    | none => exact ⟨rfl, Or.inr rfl⟩
    | some r =>
      cases hex : exchangeGoogleCodeForTokens net.exchangeOk net.exchangeTokens with
      | error e => exact ⟨rfl, Or.inr rfl⟩
      | ok tokens =>
        cases hui : getGoogleUserInfo net.userinfoOk net.userinfo with
        | error e => exact ⟨rfl, Or.inr rfl⟩
        | ok ui =>
          cases hid : getCognitoIdentityId net.getIdOk net.getIdIdentityId with
          | error e => exact ⟨rfl, Or.inr rfl⟩
          | ok iid =>
            exfalso
            rcases h with h | h | h | h
            · rw [h] at hui
              unfold getGoogleUserInfo at hui
              simp at hui
            · rw [h] at hid
              unfold getCognitoIdentityId at hid
              simp at hid
            · rw [h] at hid
              unfold getCognitoIdentityId at hid
              simp at hid
            · rw [h] at hid
              unfold getCognitoIdentityId at hid
              rcases hok : net.getIdOk with _ | _ <;> rw [hok] at hid <;> simp at hid

/-- Claim C5 witness: a failed consumer userinfo call aborts the callback. -/
theorem claim_C5_witness :
    issuedRedirect (handleCallbackGoogle (some (s2l "UP123")) (some (s2l "state"))
      none ⟨true, ⟨s2l "at", some (s2l "idt")⟩, false, ⟨s2l "u1", s2l "a@b.com", none, none⟩,
        true, some (s2l "us-west-2:abc")⟩ 0) = false ∧
    (handleCallbackGoogle (some (s2l "UP123")) (some (s2l "state"))
        none ⟨true, ⟨s2l "at", some (s2l "idt")⟩, false, ⟨s2l "u1", s2l "a@b.com", none, none⟩,
          true, some (s2l "us-west-2:abc")⟩ 0 = .error 400 ∨
      handleCallbackGoogle (some (s2l "UP123")) (some (s2l "state"))
        none ⟨true, ⟨s2l "at", some (s2l "idt")⟩, false, ⟨s2l "u1", s2l "a@b.com", none, none⟩,
          true, some (s2l "us-west-2:abc")⟩ 0 = .error 500) :=
  claim_C5 (some (s2l "UP123")) (some (s2l "state")) none
    ⟨true, ⟨s2l "at", some (s2l "idt")⟩, false, ⟨s2l "u1", s2l "a@b.com", none, none⟩,
      true, some (s2l "us-west-2:abc")⟩ 0 (Or.inl rfl)

/-- Claim C6: redeeming an authorization code produced by the issuer returns
the encoded record exactly: `JSON.parse` after base64-decode inverts base64 of
`JSON.stringify` of the identity fields plus the issuance timestamp, for every
input the issuer accepts (`btoa` succeeds; timestamps below 2^53, where the
JS number model is exact). -/
theorem claim_C6 (inp : CreateMCPAuthCodeInput) (now : Nat) (code : Str)
    (_hts : now < 2 ^ 53)
    (h : createMCPAuthCode inp now = some code) :
    decodeAuthCode code =
      some ⟨inp.cognitoIdentityId, inp.googleUserId, inp.email, inp.name, now⟩ := by
  unfold createMCPAuthCode at h
  unfold decodeAuthCode
  rw [btoa_atob _ _ h]
  exact parseMCPTokenData_stringify _

set_option maxRecDepth 10000 in
set_option maxHeartbeats 1000000 in
/-- Claim C6 witness: round trip of a concrete identity at timestamp 1234. -/
theorem claim_C6_witness :
    decodeAuthCode (b64encode (stringifyMCPTokenData exampleTokenData)) =
      some ⟨s2l "us-west-2:abc", s2l "g-sub-1", s2l "a@b.com", s2l "Ann", 1234⟩ :=
  claim_C6 ⟨s2l "us-west-2:abc", s2l "g-sub-1", s2l "a@b.com", s2l "Ann"⟩ 1234
    (b64encode (stringifyMCPTokenData exampleTokenData)) (by decide) (by decide)

set_option maxHeartbeats 1000000 in
/-- Claim C7: the relay state built at `/authorize` survives the round trip to
`/callback`: serializing the record, carrying it as a URL query parameter
(UTF-8 percent-encoding and decoding by `URLSearchParams`), and parsing it
back reproduces every field, including an absent caller state and caller
states needing percent-encoding — for fields made of Unicode scalar values. -/
theorem claim_C7 (r : RelayState)
    (h1 : wfStr r.mcpClientId) (h2 : wfStr r.mcpRedirectUri)
    (h3 : ∀ s, r.mcpState = some s → wfStr s)
    (h4 : ∀ s, r.codeChallenge = some s → wfStr s)
    (h5 : ∀ s, r.codeChallengeMethod = some s → wfStr s) :
    (urlParamTransport (stringifyRelayState r)).bind parseRelayState = some r := by
  have hlt : ∀ c ∈ stringifyRelayState r, c < 1114112 :=
    stringifyRelayState_lt r (fun c hc => wfChar_lt c (h1 c hc))
      (fun c hc => wfChar_lt c (h2 c hc))
      (fun s hs c hc => wfChar_lt c (h3 s hs c hc))
      (fun s hs c hc => wfChar_lt c (h4 s hs c hc))
      (fun s hs c hc => wfChar_lt c (h5 s hs c hc))
  rw [urlParamTransport_id _ hlt]
  show parseRelayState (stringifyRelayState r) = some r
  exact parseRelayState_stringify r

set_option maxRecDepth 10000 in
set_option maxHeartbeats 1000000 in
/-- Claim C7 witness: a relay state whose caller state needs percent-encoding
and whose PKCE challenge is absent. -/
theorem claim_C7_witness :
    (urlParamTransport (stringifyRelayState
        ⟨s2l "cid1", s2l "https://e.test/cb", some (s2l "st %+&=?"), none,
         some (s2l "S256")⟩)).bind parseRelayState =
      some ⟨s2l "cid1", s2l "https://e.test/cb", some (s2l "st %+&=?"), none,
        some (s2l "S256")⟩ :=
  claim_C7 ⟨s2l "cid1", s2l "https://e.test/cb", some (s2l "st %+&=?"), none, some (s2l "S256")⟩
    (by decide) (by decide)
    (by intro s hs; cases hs; decide)
    (by intro s hs; cases hs)
    (by intro s hs; cases hs; decide)

/-- Claim C8: whenever the registry-checking `/authorize` passes validation and
issues the upstream redirect, that redirect's `redirect_uri` query parameter is
the proxy's own callback endpoint `origin ++ "/callback"` — independent of the
downstream client's redirect URI — and the form body later posted by the
upstream token exchange at `/callback` carries exactly the same
`redirect_uri` value. -/
theorem claim_C8 (p : AuthorizeParams) (registry : List Str)
    (origin ccid csec code base : Str) (ps : List (Str × Str))
    (h : handleAuthorizeCognito p registry origin ccid = .redirect base ps) :
    assocGet ps (s2l "redirect_uri") = some (origin ++ s2l "/callback") ∧
    assocGet (exchangeCodeForTokensBody code origin ccid csec) (s2l "redirect_uri") =
      some (origin ++ s2l "/callback") := by
  constructor
  · unfold handleAuthorizeCognito at h
    by_cases hv : ¬truthy p.clientId ∨ ¬truthy p.redirectUri
    · rw [if_pos hv] at h
      exact AuthorizeResult.noConfusion h
    · rw [if_neg hv] at h
      by_cases hreg : ¬ registryHas registry (p.clientId.getD [])
      · rw [if_pos hreg] at h
        exact AuthorizeResult.noConfusion h
      · rw [if_neg hreg] at h
        injection h with hbase hps
        rw [← hps]
        rw [assocGet, if_neg (by decide), assocGet, if_neg (by decide),
          assocGet, if_neg (by decide), assocGet, if_pos (by decide)]
  · rw [exchangeCodeForTokensBody]
    rw [assocGet, if_neg (by decide), assocGet, if_neg (by decide),
      assocGet, if_neg (by decide), assocGet, if_neg (by decide),
      assocGet, if_pos (by decide)]

/-- Claim C8 witness: a registered client's validated request. -/
theorem claim_C8_witness :
    assocGet
        [(s2l "client_id", s2l "cognito-client-id"),
         (s2l "response_type", s2l "code"),
         (s2l "scope", jsOr none (s2l "openid email profile")),
         (s2l "redirect_uri", s2l "https://proxy.example" ++ s2l "/callback"),
         (s2l "state", stringifyCognitoState none (s2l "https://e.test/cb") (s2l "cid1")
           none none)]
        (s2l "redirect_uri") = some (s2l "https://proxy.example" ++ s2l "/callback") ∧
    assocGet
        (exchangeCodeForTokensBody (s2l "UP123") (s2l "https://proxy.example")
          (s2l "cognito-client-id") (s2l "secret"))
        (s2l "redirect_uri") = some (s2l "https://proxy.example" ++ s2l "/callback") :=
  claim_C8 ⟨some (s2l "cid1"), some (s2l "https://e.test/cb"), none, none, none, none⟩
    [s2l "cid1"] (s2l "https://proxy.example") (s2l "cognito-client-id") (s2l "secret")
    (s2l "UP123")
    (s2l "https://zimitechs-gen2.auth.us-west-2.amazoncognito.com/oauth2/authorize")
    [(s2l "client_id", s2l "cognito-client-id"),
     (s2l "response_type", s2l "code"),
     (s2l "scope", jsOr none (s2l "openid email profile")),
     (s2l "redirect_uri", s2l "https://proxy.example" ++ s2l "/callback"),
     (s2l "state", stringifyCognitoState none (s2l "https://e.test/cb") (s2l "cid1")
       none none)]
    (by decide)

/-- Claim C10 counterexample: a registration supplying the empty string for
`scope` is answered with the fixed defaults, but the stored registry entry
does not keep the request-supplied value — the JavaScript `||` default kicks
in and stores "openid profile email" instead of the supplied "". -/
theorem claim_C10_counterexample :
    handleRegister (s2l "POST") ⟨none, none, some [], none, none⟩ (s2l "mcp_client_1") 0 =
      .created
        ⟨s2l "mcp_client_1", [], s2l "MCP Client", s2l "openid profile email",
         [s2l "authorization_code"], [s2l "code"], s2l "none", 0⟩
        ⟨s2l "mcp_client_1", 0, [], [s2l "authorization_code"], [s2l "code"], s2l "none",
         s2l "openid profile email"⟩ ∧
    s2l "openid profile email" ≠ [] := by decide

/-- Claim C10 (amended): every `/register` POST with a JSON-parseable body is
answered 201 reporting the fixed defaults — `grant_types`
["authorization_code"], `response_types` ["code"], scope
"openid profile email" — regardless of what the request supplied, while the
stored registry entry keeps the request-supplied `grant_types` and
`response_types` whenever supplied (arrays are always truthy, even empty) and
the request-supplied `scope` when it is a non-empty string; an empty-string
scope falls back to the stored default. -/
theorem claim_C10 (method : Str) (reg : RegistrationRequest) (clientId : Str) (now : Nat)
    (stored : StoredClient) (resp : RegisterResponseBody)
    (h : handleRegister method reg clientId now = .created stored resp) :
    resp.grantTypes = [s2l "authorization_code"] ∧
    resp.responseTypes = [s2l "code"] ∧
    resp.scope = s2l "openid profile email" ∧
    (∀ gs, reg.grantTypes = some gs → stored.grantTypes = gs) ∧
    (∀ rs, reg.responseTypes = some rs → stored.responseTypes = rs) ∧
    (∀ sc, reg.scope = some sc → sc ≠ [] → stored.scope = sc) := by
  unfold handleRegister at h
  by_cases hm : method ≠ s2l "POST"
  case pos =>
    rw [if_pos hm] at h
    exact RegisterResult.noConfusion h
  case neg =>
    rw [if_neg hm] at h
    injection h with hstored hresp
    subst hstored
    subst hresp
    refine ⟨rfl, rfl, rfl, ?_, ?_, ?_⟩
    · intro gs hgs
      show jsOrArr reg.grantTypes [s2l "authorization_code"] = gs
      rw [hgs]
      rfl
    · intro rs hrs
      show jsOrArr reg.responseTypes [s2l "code"] = rs
      rw [hrs]
      rfl
    · intro sc hsc hne
      show jsOr reg.scope (s2l "openid profile email") = sc
      rw [hsc]
      cases sc with
      | nil => exact absurd rfl hne
      | cons a as => rfl

/-- Claim C10 witness: a registration supplying every field, with non-default
values kept in the stored entry but the response reporting the defaults. -/
theorem claim_C10_witness :
    (⟨s2l "mcp_client_1", 0, [s2l "https://cb"], [s2l "authorization_code"], [s2l "code"],
        s2l "none", s2l "openid profile email"⟩ : RegisterResponseBody).grantTypes =
      [s2l "authorization_code"] ∧
    (⟨s2l "mcp_client_1", 0, [s2l "https://cb"], [s2l "authorization_code"], [s2l "code"],
        s2l "none", s2l "openid profile email"⟩ : RegisterResponseBody).responseTypes =
      [s2l "code"] ∧
    (⟨s2l "mcp_client_1", 0, [s2l "https://cb"], [s2l "authorization_code"], [s2l "code"],
        s2l "none", s2l "openid profile email"⟩ : RegisterResponseBody).scope =
      s2l "openid profile email" ∧
    (⟨s2l "mcp_client_1", [s2l "https://cb"], s2l "N", s2l "email", [s2l "implicit"],
        [s2l "token"], s2l "none", 7⟩ : StoredClient).grantTypes = [s2l "implicit"] ∧
    (⟨s2l "mcp_client_1", [s2l "https://cb"], s2l "N", s2l "email", [s2l "implicit"],
        [s2l "token"], s2l "none", 7⟩ : StoredClient).responseTypes = [s2l "token"] ∧
    (⟨s2l "mcp_client_1", [s2l "https://cb"], s2l "N", s2l "email", [s2l "implicit"],
        [s2l "token"], s2l "none", 7⟩ : StoredClient).scope = s2l "email" := by
  have h := claim_C10 (s2l "POST")
    ⟨some [s2l "https://cb"], some (s2l "N"), some (s2l "email"), some [s2l "implicit"],
     some [s2l "token"]⟩
    (s2l "mcp_client_1") 7
    ⟨s2l "mcp_client_1", [s2l "https://cb"], s2l "N", s2l "email", [s2l "implicit"],
     [s2l "token"], s2l "none", 7⟩
    ⟨s2l "mcp_client_1", 0, [s2l "https://cb"], [s2l "authorization_code"], [s2l "code"],
     s2l "none", s2l "openid profile email"⟩
    (by decide)
  exact ⟨h.1, h.2.1, h.2.2.1, h.2.2.2.1 _ rfl, h.2.2.2.2.1 _ rfl,
    h.2.2.2.2.2 _ rfl (by decide)⟩

end MCPAuth
